import Mathlib

/-
Verification of the ConnectFour board implementation (src/ConnectFour.cpp).

The C++ class `ConnectFour::Board` stores a grid `board` as a
`std::vector<std::vector<SpaceState>>` indexed `[row][column]`, plus a
`LastMove` record.  All machine behaviour relevant to the specification is
pure state manipulation, modelled here by explicit state passing; C++
exceptions are modelled by `Except String` results that carry the unchanged
state where the original code throws before mutating.
-/

namespace ConnectFour

/-- The C++ enum `Board::SpaceState` (src/ConnectFour.cpp lines 29-34). -/
inductive SpaceState where
  | Empty
  | Player1
  | Player2
deriving DecidableEq, Repr

/-- The C++ enum `Board::MoveType` (src/ConnectFour.cpp lines 36-40). -/
inductive MoveType where
  | Player1
  | Player2
deriving DecidableEq, Repr

/-- The C++ struct `Board::LastMove_t` (src/ConnectFour.cpp lines 45-50). -/
structure LastMove_t where
  x : Nat
  y : Nat
  isSet : Bool
deriving DecidableEq, Repr

/-- The C++ class `Board` (src/ConnectFour.cpp lines 26-283): a `LastMove`
record and the grid `board`, a vector of `Height` rows of `Width` cells. -/
structure Board where
  LastMove : LastMove_t
  board : List (List SpaceState)
deriving DecidableEq, Repr

/-- The static constant `Board::Width = 7` (line 52). -/
def Board.Width : Nat := 7

/-- The static constant `Board::Height = 6` (line 53). -/
def Board.Height : Nat := 6

/-- Raw grid read `board[r][c]`; out-of-range reads (which in-range-checked
C++ code never performs) default to `Empty`. -/
def getCellG (g : List (List SpaceState)) (r c : Nat) : SpaceState :=
  (g.getD r []).getD c SpaceState.Empty

/-- Raw grid write `board[Row][Column] = v` (no effect out of range, which
the range-checked C++ code never performs). -/
def setG (g : List (List SpaceState)) (Row Column : Nat) (v : SpaceState) :
    List (List SpaceState) :=
  g.set Row ((g.getD Row []).set Column v)

/-- The C++ default constructor `Board()` (lines 55-58): `LastMove = {0,0,false}`,
grid of `Height` rows each holding `Width` copies of `Empty`. -/
def Board.new : Board :=
  ⟨⟨0, 0, false⟩, List.replicate Board.Height (List.replicate Board.Width SpaceState.Empty)⟩

/-- The C++ copy-assignment `operator=` (lines 64-67): it assigns only the
`board` field of the destination; `LastMove` is left as it was. -/
def copyAssign (dest original : Board) : Board :=
  { dest with board := original.board }

/-- `Board::GetSpace` (lines 76-84): range-checked read, throwing on bad
indices, modelled as an `Except` result. -/
def Board.GetSpace (b : Board) (Row Column : Nat) : Except String SpaceState :=
  if Row ≥ Board.Height then Except.error ("Row out of range")
  else if Column ≥ Board.Width then Except.error ("Column out of range")
  else Except.ok (getCellG b.board Row Column)

/-- The loop body of `Board::GetColumnHeight` (lines 97-102): scan
`i = Height-1, ..., 0` and return the first `i` whose cell in the column is
`Empty`; if no cell is `Empty` return `Height`.  `colHeightScan g c n`
scans `i = n-1, ..., 0`. -/
def colHeightScan (g : List (List SpaceState)) (Column : Nat) : Nat → Nat
  | 0 => Board.Height
  | n + 1 =>
    if getCellG g n Column = SpaceState.Empty then n
    else colHeightScan g Column n

/-- `Board::GetColumnHeight` (lines 92-103): column range check, then the
descending scan over the rows of the column. -/
def Board.GetColumnHeight (b : Board) (Column : Nat) : Except String Nat :=
  if Column ≥ Board.Width then Except.error ("Column out of range")
  else Except.ok (colHeightScan b.board Column Board.Height)

/-- `Board::CanMakeMove` (lines 110-113): `GetColumnHeight(Column) < Height`,
propagating the range-check exception. -/
def Board.CanMakeMove (b : Board) (Column : Nat) : Except String Bool :=
  match b.GetColumnHeight Column with
  | Except.error e => Except.error e
  | Except.ok h => Except.ok (decide (h < Board.Height))

/-- `Board::ConvertMoveToSpaceState` (lines 244-250). -/
def Board.ConvertMoveToSpaceState (Move : MoveType) : SpaceState :=
  match Move with
  | MoveType.Player1 => SpaceState.Player1
  | MoveType.Player2 => SpaceState.Player2

/-- `Board::SetSpace` (lines 254-266): range checks (throwing before any
mutation), then it records `LastMove = {Column, Row, true}` and writes the
cell. -/
def Board.SetSpace (b : Board) (Row Column : Nat) (NewState : SpaceState) :
    Except String Unit × Board :=
  if Row ≥ Board.Height then (Except.error ("Row out of range"), b)
  else if Column ≥ Board.Width then (Except.error ("Column out of range"), b)
  else (Except.ok (),
    { LastMove := ⟨Column, Row, true⟩, board := setG b.board Row Column NewState })

/-- `Board::MakeMove` (lines 120-127): throw `"Cannot make move"` when
`!CanMakeMove(Column)` (before any mutation), otherwise place the token at
row `GetColumnHeight(Column)` via `SetSpace`. -/
def Board.MakeMove (b : Board) (Move : MoveType) (Column : Nat) :
    Except String Unit × Board :=
  match b.CanMakeMove Column with
  | Except.error e => (Except.error e, b)
  | Except.ok false => (Except.error ("Cannot make move"), b)
  | Except.ok true =>
    match b.GetColumnHeight Column with
    | Except.error e => (Except.error e, b)
    | Except.ok CurrentHeight =>
      b.SetSpace CurrentHeight Column (Board.ConvertMoveToSpaceState Move)

/-- The four scan loops of `Board::CheckWin` (lines 192-242): horizontal,
vertical, diagonal with both row and column increasing, and the diagonal
loop `for (r = 3; r < Height)` checking `(r, c), (r-1, c+1), (r-2, c+2),
(r-3, c+3)`, written with `r = k + 3`. -/
def checkWinG (g : List (List SpaceState)) (player : SpaceState) : Bool :=
  ((List.range Board.Height).any fun r =>
    (List.range (Board.Width - 3)).any fun c =>
      decide (getCellG g r c = player) && decide (getCellG g r (c + 1) = player) &&
      decide (getCellG g r (c + 2) = player) && decide (getCellG g r (c + 3) = player)) ||
  ((List.range Board.Width).any fun c =>
    (List.range (Board.Height - 3)).any fun r =>
      decide (getCellG g r c = player) && decide (getCellG g (r + 1) c = player) &&
      decide (getCellG g (r + 2) c = player) && decide (getCellG g (r + 3) c = player)) ||
  ((List.range (Board.Height - 3)).any fun r =>
    (List.range (Board.Width - 3)).any fun c =>
      decide (getCellG g r c = player) && decide (getCellG g (r + 1) (c + 1) = player) &&
      decide (getCellG g (r + 2) (c + 2) = player) && decide (getCellG g (r + 3) (c + 3) = player)) ||
  ((List.range (Board.Height - 3)).any fun k =>
    (List.range (Board.Width - 3)).any fun c =>
      decide (getCellG g (k + 3) c = player) && decide (getCellG g (k + 2) (c + 1) = player) &&
      decide (getCellG g (k + 1) (c + 2) = player) && decide (getCellG g k (c + 3) = player))

/-- `Board::CheckWin` (lines 192-242), reading only the grid. -/
def Board.CheckWin (b : Board) (player : SpaceState) : Bool :=
  checkWinG b.board player

/-- Sequential application of `MakeMove` calls, keeping the resulting board
of each call (the C++ game loop mutates the single board in place). -/
def applyMoves (b : Board) (ms : List (MoveType × Nat)) : Board :=
  ms.foldl (fun acc mc => (acc.MakeMove mc.1 mc.2).2) b

/-- The copy-then-mutate pattern of `main` (lines 383-390): a
default-constructed board is copy-assigned from `b` and then moves are
applied to the copy only; the pair holds (original, mutated copy). -/
def simulateOnCopy (b : Board) (ms : List (MoveType × Nat)) : Board × Board :=
  (b, applyMoves (copyAssign Board.new b) ms)

/-- The per-column probe of the win-now loop of `main` (lines 381-401):
copy the board, and if the column is playable, place Player2's token on the
copy and test `CheckWin(Player2)`. -/
def winProbe (b : Board) (i : Nat) : Bool :=
  match (copyAssign Board.new b).CanMakeMove i with
  | Except.ok true =>
    (((copyAssign Board.new b).MakeMove MoveType.Player2 i).2).CheckWin SpaceState.Player2
  | _ => false

/-- The column chosen by the win-now loop (lines 381-401): the first
`i < Width` whose probe succeeds. -/
def winColumn (b : Board) : Option Nat :=
  (List.range Board.Width).find? (winProbe b)

/-- The per-column probe of the block loop of `main` (lines 404-431):
copy the board, and if the column is playable, place Player1's token on the
copy and test `CheckWin(Player1)`. -/
def blockProbe (b : Board) (i : Nat) : Bool :=
  match (copyAssign Board.new b).CanMakeMove i with
  | Except.ok true =>
    (((copyAssign Board.new b).MakeMove MoveType.Player1 i).2).CheckWin SpaceState.Player1
  | _ => false

/-- The column chosen by the block loop (lines 404-431): the first
`i < Width` whose probe succeeds (the loop breaks at the first block). -/
def blockColumn (b : Board) : Option Nat :=
  (List.range Board.Width).find? (blockProbe b)

/-- The random-fallback scan of `main` (lines 436-445): starting from the
1-indexed `autoMove`, step forward (wrapping `Width` back to 1) until a
playable column is found.  Fuel bounds the loop; `Width` steps suffice
whenever some column is playable. -/
def randomScan (b : Board) : Nat → Nat → Nat
  | 0, autoMove => autoMove
  | fuel + 1, autoMove =>
    match b.CanMakeMove (autoMove - 1) with
    | Except.ok true => autoMove
    | _ => randomScan b fuel (if autoMove + 1 > Board.Width then 1 else autoMove + 1)

/-- The 0-indexed column the automated player (Player2) plays, as decided by
`main` (lines 371-448): win-now loop first, then the block loop, then the
random fallback seeded with the 1-indexed `autoMove`. -/
def selectColumn (b : Board) (autoMove : Nat) : Nat :=
  match winColumn b with
  | some i => i
  | none =>
    match blockColumn b with
    | some i => i
    | none => randomScan b Board.Width autoMove - 1

/-- The board after the automated player's move (the `b.MakeMove(Player2, ...)`
call that `main` performs on the chosen column). -/
def autoPlay (b : Board) (autoMove : Nat) : Board :=
  (b.MakeMove MoveType.Player2 (selectColumn b autoMove)).2

/-- The `GameOverException` handler of `main` (lines 463-478): the board is
reset by copy-assigning a freshly constructed board, and only afterwards is
`CheckWin(Player2)` consulted to decide whether to emit the beep
(`printf("\a\a\a\a")`).  Result: (beep emitted?, board after the handler). -/
def gameOverHandler (b : Board) : Bool × Board :=
  let b2 := copyAssign b Board.new
  (b2.CheckWin SpaceState.Player2, b2)

deriving instance DecidableEq for Except

/-- Boards reachable from a freshly constructed board by successful
`MakeMove` calls. -/
inductive Reachable : Board → Prop where
  | base : Reachable Board.new
  | step {b : Board} (m : MoveType) (c : Nat) :
      Reachable b → (b.MakeMove m c).1 = Except.ok () → Reachable (b.MakeMove m c).2

/-- Well-formed grid: `Height` rows of `Width` cells, as built by the
constructor. -/
def WF (b : Board) : Prop :=
  b.board.length = Board.Height ∧ ∀ row ∈ b.board, row.length = Board.Width

/-- The gravity invariant the code actually maintains: within each column,
the non-Empty cells occupy the rows of largest index, i.e. a non-Empty cell
at row `r` forces every row `r' ≥ r` of that column (below it on the screen,
since row 0 is printed first) to be non-Empty. -/
def TopStacked (b : Board) : Prop :=
  ∀ c, c < Board.Width → ∀ r r', r ≤ r' → r' < Board.Height →
    getCellG b.board r c ≠ SpaceState.Empty → getCellG b.board r' c ≠ SpaceState.Empty

/-- Four consecutively aligned cells holding `player`'s token: horizontal,
vertical, or either diagonal, all inside the grid bounds. -/
def HasFour (b : Board) (player : SpaceState) : Prop :=
  (∃ r c, r < Board.Height ∧ c + 3 < Board.Width ∧
    getCellG b.board r c = player ∧ getCellG b.board r (c + 1) = player ∧
    getCellG b.board r (c + 2) = player ∧ getCellG b.board r (c + 3) = player) ∨
  (∃ r c, r + 3 < Board.Height ∧ c < Board.Width ∧
    getCellG b.board r c = player ∧ getCellG b.board (r + 1) c = player ∧
    getCellG b.board (r + 2) c = player ∧ getCellG b.board (r + 3) c = player) ∨
  (∃ r c, r + 3 < Board.Height ∧ c + 3 < Board.Width ∧
    getCellG b.board r c = player ∧ getCellG b.board (r + 1) (c + 1) = player ∧
    getCellG b.board (r + 2) (c + 2) = player ∧ getCellG b.board (r + 3) (c + 3) = player) ∨
  (∃ r c, 3 ≤ r ∧ r < Board.Height ∧ c + 3 < Board.Width ∧
    getCellG b.board r c = player ∧ getCellG b.board (r - 1) (c + 1) = player ∧
    getCellG b.board (r - 2) (c + 2) = player ∧ getCellG b.board (r - 3) (c + 3) = player)

/-- Number of occupied (non-Empty) cells in a column. -/
def columnPieces (b : Board) (c : Nat) : Nat :=
  ((List.range Board.Height).filter fun r =>
    decide (getCellG b.board r c ≠ SpaceState.Empty)).length

/-- A board whose column 0 has been filled by six successful moves. -/
def fullColBoard : Board :=
  applyMoves Board.new (List.replicate 6 (MoveType.Player1, 0))

/-- The board after a single move in column 0 of a fresh board. -/
def oneMoveBoard : Board := (Board.new.MakeMove MoveType.Player1 0).2

/-- A finished game in which Player1 has four in a row (the automated
player, Player2, has lost). -/
def p1WinBoard : Board :=
  applyMoves Board.new
    [(MoveType.Player1, 0), (MoveType.Player1, 1), (MoveType.Player1, 2), (MoveType.Player1, 3)]

/-- A board on which Player2 can win at once in column 0 (three Player2
tokens already stacked there). -/
def p2ThreeBoard : Board :=
  applyMoves Board.new
    [(MoveType.Player2, 0), (MoveType.Player2, 0), (MoveType.Player2, 0)]

/-- A board on which Player1 threatens to win in column 0 (three Player1
tokens stacked there) while Player2 has no immediate win. -/
def p1ThreeBoard : Board :=
  applyMoves Board.new
    [(MoveType.Player1, 0), (MoveType.Player1, 0), (MoveType.Player1, 0)]

end ConnectFour

namespace ConnectFour

/-- C1 (code_bug evidence): `GetColumnHeight`'s own documentation promises
the number of pieces in the column, but on a fresh board (0 pieces) it
returns 5, and after one piece has been inserted in column 0 it returns 4:
the code returns the index of the topmost `Empty` row found scanning
downward, not the piece count. -/
theorem c1_getColumnHeight_contradicts_doc :
    Board.new.GetColumnHeight 0 = Except.ok 5 ∧
    columnPieces Board.new 0 = 0 ∧
    (Board.new.MakeMove MoveType.Player1 0).1 = Except.ok () ∧
    oneMoveBoard.GetColumnHeight 0 = Except.ok 4 ∧
    columnPieces oneMoveBoard 0 = 1 :=
  ⟨rfl, rfl, rfl, rfl, rfl⟩

/-- C4: on any board, a move into a column that `CanMakeMove` rejects fails
with the `"Cannot make move"` exception and returns the board completely
unchanged (grid and `LastMove` alike): the throw happens before any
mutation. -/
theorem c4_full_column_move_atomic_failure (b : Board) (m : MoveType) (c : Nat)
    (h : b.CanMakeMove c = Except.ok false) :
    b.MakeMove m c = (Except.error ("Cannot make move"), b) := by
  unfold Board.MakeMove
  rw [h]

/-- C4 witness: column 0 of `fullColBoard` is full, and the move fails
atomically there. -/
theorem c4_witness :
    fullColBoard.CanMakeMove 0 = Except.ok false ∧
    fullColBoard.MakeMove MoveType.Player1 0 =
      (Except.error ("Cannot make move"), fullColBoard) :=
  ⟨rfl, c4_full_column_move_atomic_failure fullColBoard MoveType.Player1 0 rfl⟩

/-- C7: the copy-then-mutate pattern of `main` leaves every observation
(`GetSpace`, `GetColumnHeight`) on the original board unchanged, whatever
moves are applied to the copy; `std::vector` copy-assignment copies the
elements, so board values share no mutable state. -/
theorem c7_deep_copy_independence (b : Board) (ms : List (MoveType × Nat)) (r c : Nat) :
    ((simulateOnCopy b ms).1).GetSpace r c = b.GetSpace r c ∧
    ((simulateOnCopy b ms).1).GetColumnHeight c = b.GetColumnHeight c :=
  ⟨rfl, rfl⟩

/-- C9 (amended): the game-over handler never emits the beep: it resets the
board (copy-assigning a fresh board) before testing `CheckWin(Player2)`, and
on the fresh grid that test is always false. -/
theorem c9_amended_handler_never_beeps (b : Board) : (gameOverHandler b).1 = false := by
  show checkWinG Board.new.board SpaceState.Player2 = false
  decide

/-- C9 counterexample: a concrete finished game lost by the automated
player (Player1 has four in a row), yet the handler does not trigger the
alert, contradicting the claim that a Player2 loss triggers the beep. -/
theorem c9_counterexample :
    p1WinBoard.CheckWin SpaceState.Player1 = true ∧
    (gameOverHandler p1WinBoard).1 = false :=
  ⟨rfl, rfl⟩

/-- C2 counterexample: one successful move on a fresh board produces a
reachable board whose token sits at row 5 while row 0 of the same column is
still `Empty`: an `Empty` cell lies below (at a smaller row index than) a
non-Empty cell, so the claimed run starting at row 0 does not exist. -/
theorem c2_counterexample :
    Reachable oneMoveBoard ∧
    getCellG oneMoveBoard.board 5 0 = SpaceState.Player1 ∧
    getCellG oneMoveBoard.board 0 0 = SpaceState.Empty ∧ (0 : Nat) < 5 :=
  ⟨Reachable.step MoveType.Player1 0 Reachable.base rfl, rfl, rfl, by decide⟩

/-- C3: `CheckWin` returns true exactly when the board holds four of the
given token consecutively aligned horizontally, vertically, or along either
diagonal. -/
theorem c3_checkWin_iff_hasFour (b : Board) (player : SpaceState) :
    b.CheckWin player = true ↔ HasFour b player := by
  simp only [Board.CheckWin, checkWinG, HasFour, Bool.or_eq_true, List.any_eq_true,
    List.mem_range, Bool.and_eq_true, decide_eq_true_eq, Board.Width, Board.Height]
  constructor
  · rintro (((⟨r, hr, c, hc, ⟨⟨h0, h1⟩, h2⟩, h3⟩ | ⟨c, hc, r, hr, ⟨⟨h0, h1⟩, h2⟩, h3⟩) |
      ⟨r, hr, c, hc, ⟨⟨h0, h1⟩, h2⟩, h3⟩) | ⟨k, hk, c, hc, ⟨⟨h0, h1⟩, h2⟩, h3⟩)
    · exact Or.inl ⟨r, c, by omega, by omega, h0, h1, h2, h3⟩
    · exact Or.inr (Or.inl ⟨r, c, by omega, by omega, h0, h1, h2, h3⟩)
    · exact Or.inr (Or.inr (Or.inl ⟨r, c, by omega, by omega, h0, h1, h2, h3⟩))
    · refine Or.inr (Or.inr (Or.inr ⟨k + 3, c, by omega, by omega, by omega, h0, ?_, ?_, ?_⟩))
      · have e : k + 3 - 1 = k + 2 := by omega
        rw [e]; exact h1
      · have e : k + 3 - 2 = k + 1 := by omega
        rw [e]; exact h2
      · have e : k + 3 - 3 = k := by omega
        rw [e]; exact h3
  · rintro (⟨r, c, hr, hc, h0, h1, h2, h3⟩ | ⟨r, c, hr, hc, h0, h1, h2, h3⟩ |
      ⟨r, c, hr, hc, h0, h1, h2, h3⟩ | ⟨r, c, hr3, hr, hc, h0, h1, h2, h3⟩)
    · exact Or.inl (Or.inl (Or.inl ⟨r, by omega, c, by omega, ⟨⟨h0, h1⟩, h2⟩, h3⟩))
    · exact Or.inl (Or.inl (Or.inr ⟨c, by omega, r, by omega, ⟨⟨h0, h1⟩, h2⟩, h3⟩))
    · exact Or.inl (Or.inr ⟨r, by omega, c, by omega, ⟨⟨h0, h1⟩, h2⟩, h3⟩)
    · have e0 : r - 3 + 3 = r := by omega
      have e1 : r - 3 + 2 = r - 1 := by omega
      have e2 : r - 3 + 1 = r - 2 := by omega
      refine Or.inr ⟨r - 3, by omega, c, by omega, ⟨⟨?_, ?_⟩, ?_⟩, h3⟩
      · rw [e0]; exact h0
      · rw [e1]; exact h1
      · rw [e2]; exact h2

/-- C10: copy-assignment replaces only the grid of the destination and
leaves its `LastMove` untouched; hence the handler's board reset keeps the
finished game's `LastMove`, and a simulation copy keeps the fresh copy's
own `{0, 0, false}` record. -/
theorem c10_copyAssign_lastMove_frame (d o : Board) :
    (copyAssign d o).board = o.board ∧
    (copyAssign d o).LastMove = d.LastMove ∧
    (gameOverHandler d).2.LastMove = d.LastMove ∧
    (copyAssign Board.new o).LastMove = ⟨0, 0, false⟩ :=
  ⟨rfl, rfl, rfl, rfl⟩

/-- Copy-assigned boards read the same grid as the source, so `CanMakeMove`
agrees with the source board. -/
theorem canMakeMove_copy (d o : Board) (c : Nat) :
    (copyAssign d o).CanMakeMove c = o.CanMakeMove c := rfl

/-- Copy-assigned boards read the same grid as the source, so
`GetColumnHeight` agrees with the source board. -/
theorem getColumnHeight_copy (d o : Board) (c : Nat) :
    (copyAssign d o).GetColumnHeight c = o.GetColumnHeight c := rfl

/-- A move applied to a copy-assigned board produces the same grid as the
same move applied to the source board (only `LastMove` can differ). -/
theorem makeMove_board_copy (d o : Board) (m : MoveType) (c : Nat) :
    (((copyAssign d o).MakeMove m c).2).board = ((o.MakeMove m c).2).board := by
  unfold Board.MakeMove
  rw [canMakeMove_copy, getColumnHeight_copy]
  cases h : o.CanMakeMove c with
  | error e => rfl
  | ok bb =>
    cases bb with
    | false => rfl
    | true =>
      cases h2 : o.GetColumnHeight c with
      | error e => rfl
      | ok hgt =>
        show ((copyAssign d o).SetSpace hgt c (Board.ConvertMoveToSpaceState m)).2.board
          = ((o.SetSpace hgt c (Board.ConvertMoveToSpaceState m)).2).board
        unfold Board.SetSpace
        split
        · rfl
        · split
          · rfl
          · rfl

/-- The win-now probe holds exactly when the column is playable and playing
Player2's token there wins. -/
theorem winProbe_true_iff (b : Board) (i : Nat) :
    winProbe b i = true ↔
      (b.CanMakeMove i = Except.ok true ∧
        ((b.MakeMove MoveType.Player2 i).2).CheckWin SpaceState.Player2 = true) := by
  unfold winProbe
  rw [canMakeMove_copy]
  cases h : b.CanMakeMove i with
  | error e => simp [h]
  | ok bb =>
    cases bb with
    | false => simp [h]
    | true =>
      show (((copyAssign Board.new b).MakeMove MoveType.Player2 i).2).CheckWin SpaceState.Player2
        = true ↔ _
      unfold Board.CheckWin
      rw [makeMove_board_copy]
      simp [h]

/-- The block probe holds exactly when the column is playable and playing
Player1's token there would win for Player1. -/
theorem blockProbe_true_iff (b : Board) (i : Nat) :
    blockProbe b i = true ↔
      (b.CanMakeMove i = Except.ok true ∧
        ((b.MakeMove MoveType.Player1 i).2).CheckWin SpaceState.Player1 = true) := by
  unfold blockProbe
  rw [canMakeMove_copy]
  cases h : b.CanMakeMove i with
  | error e => simp [h]
  | ok bb =>
    cases bb with
    | false => simp [h]
    | true =>
      show (((copyAssign Board.new b).MakeMove MoveType.Player1 i).2).CheckWin SpaceState.Player1
        = true ↔ _
      unfold Board.CheckWin
      rw [makeMove_board_copy]
      simp [h]

/-- On `List.range n`, `find?` returns the least index satisfying the
predicate. -/
theorem find_range_least (p : Nat → Bool) (n i : Nat) (hi : i < n) (hp : p i = true)
    (hmin : ∀ j, j < i → p j = false) : (List.range n).find? p = some i := by
  induction n with
  | zero => omega
  | succ n ih =>
    rw [List.range_succ, List.find?_append]
    rcases Nat.lt_or_ge i n with h | h
    · rw [ih h]
      rfl
    · have hin : i = n := by omega
      subst hin
      have hnone : (List.range i).find? p = none := by
        refine List.find?_eq_none.mpr ?_
        intro x hx
        simp only [List.mem_range] at hx
        simp [hmin x hx]
      rw [hnone]
      simp [List.find?, hp]

/-- C5 win-now priority: whenever some playable column lets the automated
player (Player2) win immediately, and `i` is the lowest-indexed such column,
the move selector returns `i` for every random seed, and the automated
player's move is `MakeMove(Player2, i)`. -/
theorem c5_win_now_priority (b : Board) (i : Nat) (hi : i < Board.Width)
    (hplay : b.CanMakeMove i = Except.ok true)
    (hwin : ((b.MakeMove MoveType.Player2 i).2).CheckWin SpaceState.Player2 = true)
    (hmin : ∀ j, j < i →
      ¬(b.CanMakeMove j = Except.ok true ∧
        ((b.MakeMove MoveType.Player2 j).2).CheckWin SpaceState.Player2 = true))
    (autoMove : Nat) :
    selectColumn b autoMove = i ∧
      autoPlay b autoMove = (b.MakeMove MoveType.Player2 i).2 := by
  have hw : winColumn b = some i := by
    refine find_range_least (winProbe b) Board.Width i hi ?_ ?_
    · exact (winProbe_true_iff b i).mpr ⟨hplay, hwin⟩
    · intro j hj
      cases hwpj : winProbe b j with
      | false => rfl
      | true => exact absurd ((winProbe_true_iff b j).mp hwpj) (hmin j hj)
  have hs : selectColumn b autoMove = i := by
    unfold selectColumn
    rw [hw]
  refine ⟨hs, ?_⟩
  unfold autoPlay
  rw [hs]

/-- C5 witness: on a board with three Player2 tokens stacked in column 0,
the selector plays column 0 and wins. -/
theorem c5_witness :
    selectColumn p2ThreeBoard 1 = 0 ∧
      autoPlay p2ThreeBoard 1 = (p2ThreeBoard.MakeMove MoveType.Player2 0).2 :=
  c5_win_now_priority p2ThreeBoard 0 (by decide) rfl rfl
    (fun j hj => absurd hj (Nat.not_lt_zero j)) 1

/-- C6 block priority: when no playable column gives the automated player an
immediate win, but some playable column would let the opponent (Player1)
complete four-in-a-row, and `i` is the lowest-indexed such column, the move
selector returns `i` for every random seed and Player2's own token is played
there. -/
theorem c6_block_priority (b : Board) (i : Nat) (hi : i < Board.Width)
    (hnowin : ∀ j, j < Board.Width →
      ¬(b.CanMakeMove j = Except.ok true ∧
        ((b.MakeMove MoveType.Player2 j).2).CheckWin SpaceState.Player2 = true))
    (hplay : b.CanMakeMove i = Except.ok true)
    (hblock : ((b.MakeMove MoveType.Player1 i).2).CheckWin SpaceState.Player1 = true)
    (hmin : ∀ j, j < i →
      ¬(b.CanMakeMove j = Except.ok true ∧
        ((b.MakeMove MoveType.Player1 j).2).CheckWin SpaceState.Player1 = true))
    (autoMove : Nat) :
    selectColumn b autoMove = i ∧
      autoPlay b autoMove = (b.MakeMove MoveType.Player2 i).2 := by
  have hw : winColumn b = none := by
    refine List.find?_eq_none.mpr ?_
    intro x hx
    simp only [List.mem_range] at hx
    intro hwx
    exact hnowin x hx ((winProbe_true_iff b x).mp hwx)
  have hb : blockColumn b = some i := by
    refine find_range_least (blockProbe b) Board.Width i hi ?_ ?_
    · exact (blockProbe_true_iff b i).mpr ⟨hplay, hblock⟩
    · intro j hj
      cases hbpj : blockProbe b j with
      | false => rfl
      | true => exact absurd ((blockProbe_true_iff b j).mp hbpj) (hmin j hj)
  have hs : selectColumn b autoMove = i := by
    unfold selectColumn
    rw [hw, hb]
  refine ⟨hs, ?_⟩
  unfold autoPlay
  rw [hs]

/-- C6 witness: on a board with three Player1 tokens stacked in column 0 and
no Player2 win available, the selector blocks at column 0. -/
theorem c6_witness :
    selectColumn p1ThreeBoard 1 = 0 ∧
      autoPlay p1ThreeBoard 1 = (p1ThreeBoard.MakeMove MoveType.Player2 0).2 :=
  c6_block_priority p1ThreeBoard 0 (by decide) (by decide) rfl rfl
    (fun j hj => absurd hj (Nat.not_lt_zero j)) 1

/-- Characterisation of the descending scan of `GetColumnHeight`: either no
row below `n` holds an `Empty` cell and the scan returns `Height`, or the
scan returns the largest row index below `n` whose cell is `Empty` (every
row strictly above it, below `n`, being occupied). -/
theorem colHeightScan_spec (g : List (List SpaceState)) (c : Nat) :
    ∀ n, n ≤ Board.Height →
      (colHeightScan g c n = Board.Height ∧
        ∀ i, i < n → getCellG g i c ≠ SpaceState.Empty) ∨
      (colHeightScan g c n < n ∧
        getCellG g (colHeightScan g c n) c = SpaceState.Empty ∧
        ∀ j, colHeightScan g c n < j → j < n → getCellG g j c ≠ SpaceState.Empty) := by
  intro n
  induction n with
  | zero =>
    intro _
    exact Or.inl ⟨rfl, fun i hi => absurd hi (Nat.not_lt_zero i)⟩
  | succ n ih =>
    intro hn
    by_cases hcell : getCellG g n c = SpaceState.Empty
    · right
      have hs : colHeightScan g c (n + 1) = n := by
        simp only [colHeightScan]
        rw [if_pos hcell]
      rw [hs]
      exact ⟨Nat.lt_succ_self n, hcell, fun j hj1 hj2 => absurd hj1 (by omega)⟩
    · have hs : colHeightScan g c (n + 1) = colHeightScan g c n := by
        simp only [colHeightScan]
        rw [if_neg hcell]
      rw [hs]
      rcases ih (by omega) with ⟨h1, h2⟩ | ⟨h1, h2, h3⟩
      · left
        refine ⟨h1, fun i hi => ?_⟩
        rcases Nat.lt_or_ge i n with h | h
        · exact h2 i h
        · have hieq : i = n := by omega
          rw [hieq]
          exact hcell
      · right
        refine ⟨by omega, h2, fun j hj1 hj2 => ?_⟩
        rcases Nat.lt_or_ge j n with h | h
        · exact h3 j hj1 h
        · have hjeq : j = n := by omega
          rw [hjeq]
          exact hcell

/-- On an in-range column, `GetColumnHeight` returns the scan value. -/
theorem getColumnHeight_ok (b : Board) (c : Nat) (hc : c < Board.Width) :
    b.GetColumnHeight c = Except.ok (colHeightScan b.board c Board.Height) := by
  unfold Board.GetColumnHeight
  rw [if_neg (Nat.not_le.mpr hc)]

/-- On an in-range column, `CanMakeMove` compares the scan value with
`Height`. -/
theorem canMakeMove_ok (b : Board) (c : Nat) (hc : c < Board.Width) :
    b.CanMakeMove c =
      Except.ok (decide (colHeightScan b.board c Board.Height < Board.Height)) := by
  unfold Board.CanMakeMove
  rw [getColumnHeight_ok b c hc]

/-- A successful `MakeMove` happens on an in-range, non-full column and
produces exactly the board whose grid has the token written at the scanned
row and whose `LastMove` records that cell. -/
theorem makeMove_success_eq (b : Board) (m : MoveType) (c : Nat)
    (hok : (b.MakeMove m c).1 = Except.ok ()) :
    c < Board.Width ∧ colHeightScan b.board c Board.Height < Board.Height ∧
      (b.MakeMove m c).2 =
        ⟨⟨c, colHeightScan b.board c Board.Height, true⟩,
          setG b.board (colHeightScan b.board c Board.Height) c
            (Board.ConvertMoveToSpaceState m)⟩ := by
  by_cases hc : c < Board.Width
  · by_cases hh : colHeightScan b.board c Board.Height < Board.Height
    · refine ⟨hc, hh, ?_⟩
      have h2 : b.CanMakeMove c = Except.ok true := by
        rw [canMakeMove_ok b c hc]
        simp [hh]
      unfold Board.MakeMove
      rw [h2, getColumnHeight_ok b c hc]
      show (b.SetSpace (colHeightScan b.board c Board.Height) c
        (Board.ConvertMoveToSpaceState m)).2 = _
      unfold Board.SetSpace
      rw [if_neg (Nat.not_le.mpr hh), if_neg (Nat.not_le.mpr hc)]
    · exfalso
      have h2 : b.CanMakeMove c = Except.ok false := by
        rw [canMakeMove_ok b c hc]
        simp [hh]
      unfold Board.MakeMove at hok
      rw [h2] at hok
      exact Except.noConfusion hok
  · exfalso
    have h2 : b.CanMakeMove c = Except.error ("Column out of range") := by
      unfold Board.CanMakeMove Board.GetColumnHeight
      rw [if_pos (Nat.le_of_not_lt hc)]
    unfold Board.MakeMove at hok
    rw [h2] at hok
    exact Except.noConfusion hok

/-- Writing a cell inside the grid bounds updates exactly that cell. -/
theorem getCellG_setG_self (g : List (List SpaceState)) (rs cs : Nat) (v : SpaceState)
    (h1 : rs < g.length) (h2 : cs < (g.getD rs []).length) :
    getCellG (setG g rs cs v) rs cs = v := by
  unfold getCellG setG
  have hrow : (g.set rs ((g.getD rs []).set cs v)).getD rs [] = (g.getD rs []).set cs v := by
    rw [List.getD_eq_getElem?_getD, List.getElem?_set_eq_of_lt ((g.getD rs []).set cs v) h1]
    rfl
  rw [hrow, List.getD_eq_getElem?_getD, List.getElem?_set_eq_of_lt v h2]
  rfl

/-- Replacing one row of the grid leaves every other row unchanged. -/
theorem getD_set_ne_row (g : List (List SpaceState)) (rs rr : Nat) (row : List SpaceState)
    (h : rs ≠ rr) : (g.set rs row).getD rr [] = g.getD rr [] := by
  rw [List.getD_eq_getElem?_getD, List.getElem?_set_ne h, ← List.getD_eq_getElem?_getD]

/-- Writing a cell leaves every other cell unchanged. -/
theorem getCellG_setG_ne (g : List (List SpaceState)) (rs cs rr cc : Nat) (v : SpaceState)
    (h : rs ≠ rr ∨ cs ≠ cc) :
    getCellG (setG g rs cs v) rr cc = getCellG g rr cc := by
  unfold getCellG setG
  rcases h with h | h
  · rw [getD_set_ne_row g rs rr _ h]
  · by_cases hrr : rs = rr
    · subst hrr
      rcases Nat.lt_or_ge rs g.length with hl | hl
      · have hrow : (g.set rs ((g.getD rs []).set cs v)).getD rs []
            = (g.getD rs []).set cs v := by
          rw [List.getD_eq_getElem?_getD, List.getElem?_set_eq_of_lt ((g.getD rs []).set cs v) hl]
          rfl
        rw [hrow, List.getD_eq_getElem?_getD ((g.getD rs []).set cs v) cc,
          List.getElem?_set_ne h, ← List.getD_eq_getElem?_getD]
      · rw [List.set_eq_of_length_le hl]
    · rw [getD_set_ne_row g rs rr _ hrr]

/-- A placed token is never `Empty`. -/
theorem convertMove_ne_empty (m : MoveType) :
    Board.ConvertMoveToSpaceState m ≠ SpaceState.Empty := by
  cases m <;> simp [Board.ConvertMoveToSpaceState]

/-- Every cell of a freshly constructed board is `Empty`. -/
theorem getCellG_new (r c : Nat) : getCellG Board.new.board r c = SpaceState.Empty := by
  unfold getCellG Board.new
  rcases Nat.lt_or_ge r Board.Height with h | h
  · have hrow : (List.replicate Board.Height (List.replicate Board.Width SpaceState.Empty)).getD
        r [] = List.replicate Board.Width SpaceState.Empty := by
      rw [List.getD_eq_getElem?_getD, List.getElem?_replicate]
      simp [h]
    rw [hrow]
    rcases Nat.lt_or_ge c Board.Width with h2 | h2
    · rw [List.getD_eq_getElem?_getD, List.getElem?_replicate]
      simp [h2]
    · rw [List.getD_eq_getElem?_getD, List.getElem?_eq_none (by simpa using h2)]
      rfl
  · have hrow : (List.replicate Board.Height (List.replicate Board.Width SpaceState.Empty)).getD
        r [] = [] := by
      rw [List.getD_eq_getElem?_getD, List.getElem?_eq_none (by simpa using h)]
      rfl
    rw [hrow]
    rfl

/-- A freshly constructed board has a well-formed grid. -/
theorem wf_new : WF Board.new := by
  constructor
  · rfl
  · intro row hrow
    rw [List.eq_of_mem_replicate hrow]
    rfl

/-- A freshly constructed board satisfies the stacking invariant. -/
theorem ts_new : TopStacked Board.new := by
  intro c hc r r' hrr' hr' hne
  exact absurd (getCellG_new r c) hne

/-- Writing a non-Empty token at the scanned (largest Empty) row of a
column preserves the stacking invariant. -/
theorem ts_set (g : List (List SpaceState)) (c sc : Nat) (v : SpaceState)
    (hlen : g.length = Board.Height) (hrows : ∀ row ∈ g, row.length = Board.Width)
    (hts : ∀ c', c' < Board.Width → ∀ r r', r ≤ r' → r' < Board.Height →
      getCellG g r c' ≠ SpaceState.Empty → getCellG g r' c' ≠ SpaceState.Empty)
    (hcW : c < Board.Width) (hsc : sc < Board.Height)
    (hv : v ≠ SpaceState.Empty)
    (hAbove : ∀ j, sc < j → j < Board.Height → getCellG g j c ≠ SpaceState.Empty) :
    ∀ c', c' < Board.Width → ∀ r r', r ≤ r' → r' < Board.Height →
      getCellG (setG g sc c v) r c' ≠ SpaceState.Empty →
      getCellG (setG g sc c v) r' c' ≠ SpaceState.Empty := by
  intro c' hc' r r' hrr' hr' hne
  have hglen : sc < g.length := by
    rw [hlen]
    exact hsc
  have hrowlen : c < (g.getD sc []).length := by
    have hmem : g.getD sc [] ∈ g := by
      rw [List.getD_eq_getElem?_getD, List.getElem?_eq_getElem hglen]
      exact List.getElem_mem hglen
    rw [hrows _ hmem]
    exact hcW
  by_cases hcc : c' = c
  · subst hcc
    by_cases hr'h : r' = sc
    · subst hr'h
      rw [getCellG_setG_self g r' c' v hglen hrowlen]
      exact hv
    · rw [getCellG_setG_ne g sc c' r' c' v (Or.inl fun hx => hr'h hx.symm)]
      by_cases hrh : r = sc
      · exact hAbove r' (by omega) hr'
      · rw [getCellG_setG_ne g sc c' r c' v (Or.inl fun hx => hrh hx.symm)] at hne
        exact hts c' hc' r r' hrr' hr' hne
  · rw [getCellG_setG_ne g sc c r' c' v (Or.inr fun hx => hcc hx.symm)]
    rw [getCellG_setG_ne g sc c r c' v (Or.inr fun hx => hcc hx.symm)] at hne
    exact hts c' hc' r r' hrr' hr' hne

/-- A successful move preserves grid well-formedness. -/
theorem wf_makeMove (b : Board) (m : MoveType) (c : Nat) (hwf : WF b)
    (hok : (b.MakeMove m c).1 = Except.ok ()) : WF (b.MakeMove m c).2 := by
  obtain ⟨hc, hh, heq⟩ := makeMove_success_eq b m c hok
  obtain ⟨hlen, hrows⟩ := hwf
  rw [heq]
  constructor
  · show (setG b.board (colHeightScan b.board c Board.Height) c
      (Board.ConvertMoveToSpaceState m)).length = Board.Height
    unfold setG
    rw [List.length_set]
    exact hlen
  · intro row hrow
    have hrow' : row ∈ setG b.board (colHeightScan b.board c Board.Height) c
      (Board.ConvertMoveToSpaceState m) := hrow
    unfold setG at hrow'
    rcases List.mem_or_eq_of_mem_set hrow' with h | h
    · exact hrows row h
    · rw [h, List.length_set]
      have hglen : colHeightScan b.board c Board.Height < b.board.length := by
        rw [hlen]
        exact hh
      have hmem : b.board.getD (colHeightScan b.board c Board.Height) [] ∈ b.board := by
        rw [List.getD_eq_getElem?_getD, List.getElem?_eq_getElem hglen]
        exact List.getElem_mem hglen
      exact hrows _ hmem

/-- A successful move preserves the stacking invariant: the token is placed
at the largest-index `Empty` row of its column. -/
theorem ts_makeMove (b : Board) (m : MoveType) (c : Nat) (hwf : WF b) (hts : TopStacked b)
    (hok : (b.MakeMove m c).1 = Except.ok ()) : TopStacked (b.MakeMove m c).2 := by
  obtain ⟨hc, hh, heq⟩ := makeMove_success_eq b m c hok
  obtain ⟨hlen, hrows⟩ := hwf
  rcases colHeightScan_spec b.board c Board.Height (Nat.le_refl _) with ⟨h1, _⟩ | ⟨_, _, hAbove⟩
  · rw [h1] at hh
    exact absurd hh (Nat.lt_irrefl _)
  · rw [heq]
    unfold TopStacked
    intro c' hc' r r' hrr' hr' hne
    exact ts_set b.board c (colHeightScan b.board c Board.Height)
      (Board.ConvertMoveToSpaceState m) hlen hrows hts hc hh (convertMove_ne_empty m)
      hAbove c' hc' r r' hrr' hr' hne

/-- Every reachable board has a well-formed grid and satisfies the stacking
invariant. -/
theorem reachable_wf_ts (b : Board) (hr : Reachable b) : WF b ∧ TopStacked b := by
  induction hr with
  | base => exact ⟨wf_new, ts_new⟩
  | step m c hprev hok ih =>
    exact ⟨wf_makeMove _ m c ih.1 hok, ts_makeMove _ m c ih.1 ih.2 hok⟩

/-- C2 (amended): for every reachable board the non-Empty cells of each
column form a contiguous run ending at row `Height - 1` (no `Empty` cell at
a larger row index than a non-Empty cell), and every successful `MakeMove`
preserves this invariant, the token landing at the largest-index `Empty` row
of its column. -/
theorem c2_amended_gravity (b : Board) (hr : Reachable b) :
    TopStacked b ∧
      ∀ m c, (b.MakeMove m c).1 = Except.ok () → TopStacked (b.MakeMove m c).2 := by
  have h := reachable_wf_ts b hr
  exact ⟨h.2, fun m c hok => ts_makeMove b m c h.1 h.2 hok⟩

/-- C2 witness: the amended invariant instantiated at the freshly
constructed board. -/
theorem c2_amended_witness :
    TopStacked Board.new ∧
      ∀ m c, (Board.new.MakeMove m c).1 = Except.ok () →
        TopStacked (Board.new.MakeMove m c).2 :=
  c2_amended_gravity Board.new Reachable.base

/-- C8: on every reachable board and in-range column, `CanMakeMove` returns
true exactly when the column still has an `Empty` cell (is not full). -/
theorem c8_canPlay_iff_empty_cell (b : Board) (c : Nat) (_hreach : Reachable b)
    (hc : c < Board.Width) :
    b.CanMakeMove c = Except.ok true ↔
      ∃ r, r < Board.Height ∧ getCellG b.board r c = SpaceState.Empty := by
  rw [canMakeMove_ok b c hc]
  simp only [Except.ok.injEq, decide_eq_true_eq]
  constructor
  · intro hlt
    rcases colHeightScan_spec b.board c Board.Height (Nat.le_refl _) with ⟨h1, _⟩ | ⟨_, hE, _⟩
    · rw [h1] at hlt
      exact absurd hlt (Nat.lt_irrefl _)
    · exact ⟨colHeightScan b.board c Board.Height, hlt, hE⟩
  · rintro ⟨r, hr, hcell⟩
    rcases colHeightScan_spec b.board c Board.Height (Nat.le_refl _) with ⟨_, h2⟩ | ⟨hlt, _, _⟩
    · exact absurd hcell (h2 r hr)
    · exact hlt

/-- C8 witness: the equivalence instantiated on the freshly constructed
board at column 0. -/
theorem c8_witness :
    Board.new.CanMakeMove 0 = Except.ok true ↔
      ∃ r, r < Board.Height ∧ getCellG Board.new.board r 0 = SpaceState.Empty :=
  c8_canPlay_iff_empty_cell Board.new 0 Reachable.base (by decide)

end ConnectFour
